import Mathlib

/-!
Verification of the RespiLens NC model-data pipeline
(`scripts/process_nc_model_data.R`) against its natural-language
specification.

The R script is embedded shallowly: data frames become lists of records,
dplyr verbs become list operations, and numeric values are modelled as
exact rationals (`ℚ`).  Each definition mirrors one function or pipeline
stage of the source script.
-/

namespace RespiLens

/-- One raw model-output row, as parsed by `read_csv` in
`read_forecasts` (hub format: model/date/location/target/horizon plus an
output type, its id, and the numeric value). -/
structure ForecastRecord where
  model_id : String
  reference_date : String
  location : String
  target : String
  horizon : Int
  target_end_date : String
  output_type : String
  output_type_id : ℚ
  value : ℚ
deriving DecidableEq, Repr

/-- R's `unique`: distinct elements of a list, keeping the first
occurrence of each, in order of first appearance. -/
def uniqueList {α : Type} [DecidableEq α] : List α → List α
  | [] => []
  | a :: l => a :: uniqueList (l.filter (fun b => b ≠ a))
termination_by l => l.length
decreasing_by
  simp only [List.length_cons]
  exact Nat.lt_succ_of_le (List.length_filter_le _ _)

/-- `sort(x)` on a numeric vector, as used inside `stats::quantile`. -/
def sortDraws (xs : List ℚ) : List ℚ := List.insertionSort (· ≤ ·) xs

/-- Linear interpolation between adjacent entries of `s` at the
fractional (0-based) index `h`: `s[j] + (h - j) * (s[j+1] - s[j])` with
`j = ⌊h⌋` — the interpolation step of R's quantile type 7. -/
def interpAt (s : List ℚ) (h : ℚ) : ℚ :=
  let j := (Int.floor h).toNat
  let xj := s.getD j 0
  let xj1 := s.getD (j + 1) xj
  xj + (h - (j : ℚ)) * (xj1 - xj)

/-- `stats::quantile(x, p, names = FALSE)` with the default `type = 7`,
evaluated on an already sorted vector `s`: interpolate at the
fractional index `h = p * (length s - 1)`. -/
def quantileSorted (s : List ℚ) (p : ℚ) : ℚ :=
  interpAt s (p * ((s.length : ℚ) - 1))

/-- `stats::quantile(x, p, names = FALSE)`, default type 7: sorts the
draws and interpolates linearly between adjacent order statistics. -/
def quantileType7 (xs : List ℚ) (p : ℚ) : ℚ :=
  quantileSorted (sortDraws xs) p

/-- Index-checked variant of `quantileSorted`: probabilities outside
`[0,1]` are R errors, and every vector access is via `get?`, so `none`
marks any evaluation in which R would fail or index out of range. -/
def quantileSortedChecked (s : List ℚ) (p : ℚ) : Option ℚ :=
  if 0 ≤ p ∧ p ≤ 1 then
    let n := s.length
    let h := p * ((n : ℚ) - 1)
    let j := (Int.floor h).toNat
    match s.get? j with
    | none => none
    | some xj =>
      let g := h - (j : ℚ)
      if g = 0 then some xj
      else
        match s.get? (j + 1) with
        | none => none
        | some xj1 => some (xj + g * (xj1 - xj))
  else none

/-- Checked sample→quantile evaluation: sort, then checked type-7. -/
def quantileType7Checked (xs : List ℚ) (p : ℚ) : Option ℚ :=
  quantileSortedChecked (sortDraws xs) p

/-- `mean(x)`. -/
def sampleMean (xs : List ℚ) : ℚ := xs.sum / (xs.length : ℚ)

/-- `stats::ecdf(x)(t)`: fraction of draws that are `≤ t`. -/
def ecdfAt (xs : List ℚ) (t : ℚ) : ℚ :=
  ((xs.filter (fun x => x ≤ t)).length : ℚ) / (xs.length : ℚ)

/-- `stats::median(x)`: middle order statistic for odd length, average
of the two middle order statistics for even length.  (Comparison
definition: the source's "median" branch never calls this.) -/
def sampleMedian (xs : List ℚ) : ℚ :=
  let s := sortDraws xs
  let n := s.length
  if n % 2 = 1 then s.getD (n / 2) 0
  else (s.getD (n / 2 - 1) 0 + s.getD (n / 2) 0) / 2

/-- `convert_from_sample(grouped_model_out_tbl, new_output_type,
new_output_type_id)` acting on the draws of one group: returns the
emitted `(output_type_id, value)` rows.  The `"mean"` branch computes
`mean(value)`, the `"median"` branch also computes `mean(value)`, the
`"quantile"` branch computes `stats::quantile(value, ids)`, the `"cdf"`
branch evaluates `stats::ecdf(value)` at the ids; any other
`new_output_type` leaves `model_out_tbl_transform` unbound (an R
error), modelled as `none`. -/
def convert_from_sample (draws : List ℚ) (new_output_type : String)
    (new_output_type_id : List ℚ) : Option (List (ℚ × ℚ)) :=
  if new_output_type = "mean" then
    some (new_output_type_id.map (fun i => (i, sampleMean draws)))
  else if new_output_type = "median" then
    some (new_output_type_id.map (fun i => (i, sampleMean draws)))
  else if new_output_type = "quantile" then
    some (new_output_type_id.map (fun i => (i, quantileType7 draws i)))
  else if new_output_type = "cdf" then
    some (new_output_type_id.map (fun i => (i, ecdfAt draws i)))
  else none

/-- The level grid `c(0.01, 0.025, seq(0.050, 0.9, 0.05), 0.95, 0.975,
0.99)` used when a model submitted only samples. -/
def quantileLevels : List ℚ :=
  [0.01, 0.025,
   0.05, 0.1, 0.15, 0.2, 0.25, 0.3, 0.35, 0.4, 0.45,
   0.5, 0.55, 0.6, 0.65, 0.7, 0.75, 0.8, 0.85, 0.9,
   0.95, 0.975, 0.99]

/-- The location allow-list `locs <- c("37000", "37",
paste("NC", pathogen, target, sep = "_"))`. -/
def allowedLocs (pathogen target : String) : List String :=
  ["37000", "37", "NC" ++ "_" ++ pathogen ++ "_" ++ target]

/-- The two row filters of `read_forecasts`: keep rows whose location is
in the allow-list, then drop the excluded (model, location) combination
`model_id == "UNC_IDD-InfluPaint" & location == "37"`. -/
def hubFilter (pathogen target : String) (rows : List ForecastRecord) :
    List ForecastRecord :=
  (rows.filter (fun r => decide (r.location ∈ allowedLocs pathogen target))).filter
    (fun r => !(r.model_id == "UNC_IDD-InfluPaint" && r.location == "37"))

/-- The grouping key `group_by(horizon, target_end_date, location,
target, reference_date, model_id)` used before sample→quantile
conversion. -/
structure GroupKey where
  horizon : Int
  target_end_date : String
  location : String
  target : String
  reference_date : String
  model_id : String
deriving DecidableEq, Repr

/-- Key of a record for the sample-conversion grouping. -/
def keyOf (r : ForecastRecord) : GroupKey :=
  ⟨r.horizon, r.target_end_date, r.location, r.target, r.reference_date,
   r.model_id⟩

/-- `convert_from_sample(df %>% group_by(...), "quantile", quantiles)`
lifted to records: for each group of `df`, replace its sample draws by
one `"quantile"` row per configured level. -/
def convertGroupToQuantiles (df : List ForecastRecord) : List ForecastRecord :=
  (uniqueList (df.map keyOf)).flatMap (fun k =>
    let draws := (df.filter (fun r => decide (keyOf r = k))).map (·.value)
    quantileLevels.map (fun p =>
      { model_id := k.model_id
        reference_date := k.reference_date
        location := k.location
        target := k.target
        horizon := k.horizon
        target_end_date := k.target_end_date
        output_type := "quantile"
        output_type_id := p
        value := quantileType7 draws p }))

/-- Body of the per-model branch in `read_forecasts`: if the model's
rows have exactly one distinct `output_type` and it equals `"samples"`,
convert the samples to quantiles; otherwise return the rows unchanged. -/
def normalizeGroup (df : List ForecastRecord) : List ForecastRecord :=
  if uniqueList (df.map (·.output_type)) = ["samples"] then
    convertGroupToQuantiles df
  else df

/-- `read_forecasts(file, pathogen, target)`: location filters, the
hard-coded (model, location) exclusion, `mutate(location = "37")`, then
the per-model sample→quantile normalization. -/
def read_forecasts (rows : List ForecastRecord)
    (pathogen target : String) : List ForecastRecord :=
  let m1 := (hubFilter pathogen target rows).map
    (fun r => { r with location := "37" })
  (uniqueList (m1.map (·.model_id))).flatMap
    (fun i => normalizeGroup (m1.filter (fun r => r.model_id == i)))

/-- The per-file stage of the output loop:
`read_forecasts(file, "flu", "hosp") %>% filter(horizon != -1)` —
exactly the rows written into the per-model output file. -/
def modeloutputForFile (rows : List ForecastRecord) : List ForecastRecord :=
  (read_forecasts rows "flu" "hosp").filter (fun r => !(r.horizon == -1))

/-- `round(x, 3)` in R: round to 3 decimal places, ties to even
(IEC 60559 semantics of R's `round`). -/
def round3 (x : ℚ) : ℚ :=
  let y := x * 1000
  let f := Int.floor y
  let r := y - (f : ℚ)
  let z : ℤ :=
    if r < 1/2 then f
    else if 1/2 < r then f + 1
    else if f % 2 = 0 then f else f + 1
  (z : ℚ) / 1000

/-- Grouping key of `hubEnsembles::simple_ensemble`: one output row per
(model-independent) combination of the task and output columns. -/
structure EnsKey where
  reference_date : String
  location : String
  target : String
  horizon : Int
  target_end_date : String
  output_type : String
  output_type_id : ℚ
deriving DecidableEq, Repr

/-- Ensemble key of a record. -/
def ensKeyOf (r : ForecastRecord) : EnsKey :=
  ⟨r.reference_date, r.location, r.target, r.horizon, r.target_end_date,
   r.output_type, r.output_type_id⟩

/-- Modelled from the spec: `hubEnsembles::simple_ensemble` is not part
of this repository; per §4.4, for each (location, target, horizon,
level) it "computes the arithmetic mean of the value across models that
reported that exact level", emitting the result under the synthetic
model id. -/
def simple_ensemble (rows : List ForecastRecord) (ensembleId : String) :
    List ForecastRecord :=
  (uniqueList (rows.map ensKeyOf)).map (fun k =>
    let vs := (rows.filter (fun r => decide (ensKeyOf r = k))).map (·.value)
    { model_id := ensembleId
      reference_date := k.reference_date
      location := k.location
      target := k.target
      horizon := k.horizon
      target_end_date := k.target_end_date
      output_type := k.output_type
      output_type_id := k.output_type_id
      value := sampleMean vs })

/-- The combine-and-prepare stage of the ensemble loop:
`mutate(output_type_id = round(output_type_id, 3))` then
`filter(horizon %in% 0:3)`. -/
def prepareForEnsemble (combined : List ForecastRecord) :
    List ForecastRecord :=
  (combined.map (fun r => { r with output_type_id := round3 r.output_type_id })).filter
    (fun r => decide (0 ≤ r.horizon ∧ r.horizon ≤ 3))

/-- The full ensemble stage for one forecast date: prepare the combined
model outputs, then build the simple mean ensemble. -/
def mean_ens (combined : List ForecastRecord) : List ForecastRecord :=
  simple_ensemble (prepareForEnsemble combined) "simple-ensemble-mean"

/-- Lexicographic comparison of character lists by code point, used to
compare ISO dates (chronological order coincides with lexicographic
order on ISO-formatted dates). -/
def lexLe : List Char → List Char → Bool
  | [], _ => true
  | _ :: _, [] => false
  | a :: as, b :: bs =>
    if a.toNat < b.toNat then true
    else if b.toNat < a.toNat then false
    else lexLe as bs

/-- `a <= b` on ISO date strings (the R code compares parsed dates;
ISO strings compare identically). -/
def strLe (a b : String) : Bool := lexLe a.data b.data

/-- One entry of `auxiliary-data/locations.csv` (`loc_dic`). -/
structure LocationMeta where
  abbreviation : String
  location : String
  location_name : String
  population : ℚ
deriving DecidableEq, Repr

/-- One raw NC DPH ground-truth row (`end_week_date`, weekly count). -/
structure RawTargetRow where
  end_week_date : String
  flu_hosp : ℚ
deriving DecidableEq, Repr

/-- One emitted row of `target-hospital-admissions.csv`.  `population`
and `weekly_rate` are `none` when the `left_join` found no registry
match (R would carry `NA`). -/
structure GroundTruthRow where
  date : String
  location : String
  abbreviation : String
  location_name : String
  value : ℚ
  population : Option ℚ
  weekly_rate : Option ℚ
deriving DecidableEq, Repr

/-- The `left_join(loc_dic, by = c("abbreviation","location",
"location_name"))` lookup: population of the first registry entry
matching all three keys. -/
def lookupPopulation (loc_dic : List LocationMeta)
    (abbr loc name : String) : Option ℚ :=
  (loc_dic.find? (fun m =>
    m.abbreviation == abbr && m.location == loc && m.location_name == name)).map
    (·.population)

/-- The `target_data` pipeline (ground-truth loader): parse the date,
keep dates `>= "2023-09-01"` (ISO strings compare chronologically),
set location/abbreviation/name to the NC constants, join the registry,
and compute `weekly_rate = value/population`. -/
def target_data (rows : List RawTargetRow) (loc_dic : List LocationMeta) :
    List GroundTruthRow :=
  (rows.filter (fun r => strLe "2023-09-01" r.end_week_date)).map
    (fun r =>
      let pop := lookupPopulation loc_dic "NC" "37" "North Carolina"
      { date := r.end_week_date
        location := "37"
        abbreviation := "NC"
        location_name := "North Carolina"
        value := r.flu_hosp
        population := pop
        weekly_rate := pop.map (fun p => r.flu_hosp / p) })

/-- A filesystem action performed by the output-writing helper. -/
inductive FsOp where
  | mkdir (path : String)
  | write (path : String)
  | rename (src dst : String)
deriving DecidableEq, Repr

/-- Whether a filesystem action is a rename. -/
def FsOp.isRename : FsOp → Bool
  | .rename _ _ => true
  | _ => false

/-- `write_csv_with_dir(data, file_path)`: create the directory if it
does not exist, then `write_csv(data, file_path)` — the trace of
filesystem actions the function performs.  `dirExists` is the result of
`dir.exists(dir_path)`; `dir_path` is `dirname(file_path)`. -/
def write_csv_with_dir (dirExists : Bool) (dir_path file_path : String) :
    List FsOp :=
  (if dirExists then [] else [FsOp.mkdir dir_path]) ++ [FsOp.write file_path]

/-! ### Helper lemmas -/

lemma getD_eq_of_lt (l : List ℚ) (d : ℚ) {i : ℕ} (h : i < l.length) :
    l.getD i d = l[i] := by
  rw [List.getD_eq_getElem?_getD, List.getElem?_eq_getElem h]
  rfl

lemma sorted_getD_mono {s : List ℚ} (hs : List.Sorted (· ≤ ·) s) {i j : ℕ}
    (hij : i ≤ j) (hj : j < s.length) : s.getD i 0 ≤ s.getD j 0 := by
  rcases eq_or_lt_of_le hij with rfl | hlt
  · exact le_refl _
  · have hi : i < s.length := lt_trans hlt hj
    rw [getD_eq_of_lt s 0 hi, getD_eq_of_lt s 0 hj]
    have := List.pairwise_iff_get.mp hs ⟨i, hi⟩ ⟨j, hj⟩ hlt
    simpa [List.get_eq_getElem] using this

lemma sorted_getD_succ {s : List ℚ} (hs : List.Sorted (· ≤ ·) s) {j : ℕ}
    (_hj : j < s.length) : s.getD j 0 ≤ s.getD (j + 1) (s.getD j 0) := by
  by_cases h1 : j + 1 < s.length
  · rw [getD_eq_of_lt s _ h1, ← getD_eq_of_lt s 0 h1]
    exact sorted_getD_mono hs (Nat.le_succ j) h1
  · rw [List.getD_eq_default _ _ (Nat.le_of_not_lt h1)]

lemma floor_toNat_cast {h : ℚ} (h0 : 0 ≤ h) :
    (((Int.floor h).toNat : ℚ)) = Int.floor h := by
  have hz : ((Int.floor h).toNat : ℤ) = Int.floor h :=
    Int.toNat_of_nonneg (Int.floor_nonneg.mpr h0)
  exact_mod_cast hz

lemma floor_toNat_le {h : ℚ} {m : ℕ} (hm : h ≤ (m : ℚ)) :
    (Int.floor h).toNat ≤ m := by
  have h1 : Int.floor h ≤ (m : ℤ) := by
    have h2 := Int.floor_le_floor hm
    rwa [Int.floor_natCast] at h2
  exact Int.toNat_le.mpr h1

/-- Interpolating a sorted list is monotone in the fractional index, as
long as it stays within the index range of the list. -/
lemma interpAt_mono {s : List ℚ} (hs : List.Sorted (· ≤ ·) s) {h₁ h₂ : ℚ}
    (h10 : 0 ≤ h₁) (h12 : h₁ ≤ h₂) (h2top : h₂ ≤ (s.length : ℚ) - 1) :
    interpAt s h₁ ≤ interpAt s h₂ := by
  have h20 : 0 ≤ h₂ := h10.trans h12
  have h1top : h₁ ≤ (s.length : ℚ) - 1 := h12.trans h2top
  have hn : 1 ≤ s.length := by
    by_contra hcon
    have h0 : s.length = 0 := by omega
    rw [h0] at h2top
    norm_num at h2top
    linarith
  have hnm : ((s.length - 1 : ℕ) : ℚ) = (s.length : ℚ) - 1 := by
    rw [Nat.cast_sub hn, Nat.cast_one]
  have hj1n : (Int.floor h₁).toNat ≤ s.length - 1 :=
    floor_toNat_le (by rw [hnm]; exact h1top)
  have hj2n : (Int.floor h₂).toNat ≤ s.length - 1 :=
    floor_toNat_le (by rw [hnm]; exact h2top)
  have hj1lt : (Int.floor h₁).toNat < s.length := by omega
  have hj2lt : (Int.floor h₂).toNat < s.length := by omega
  have hj12 : (Int.floor h₁).toNat ≤ (Int.floor h₂).toNat :=
    Int.toNat_le_toNat (Int.floor_le_floor h12)
  have hj1c : (((Int.floor h₁).toNat : ℚ)) = Int.floor h₁ := floor_toNat_cast h10
  have hj2c : (((Int.floor h₂).toNat : ℚ)) = Int.floor h₂ := floor_toNat_cast h20
  have hg10 : 0 ≤ h₁ - (((Int.floor h₁).toNat : ℚ)) := by
    rw [hj1c]
    linarith [Int.floor_le h₁]
  have hg11 : h₁ - (((Int.floor h₁).toNat : ℚ)) < 1 := by
    rw [hj1c]
    linarith [Int.lt_floor_add_one h₁]
  have hg20 : 0 ≤ h₂ - (((Int.floor h₂).toNat : ℚ)) := by
    rw [hj2c]
    linarith [Int.floor_le h₂]
  simp only [interpAt]
  rcases eq_or_lt_of_le hj12 with heq | hlt
  · rw [← heq]
    have hd : s.getD (Int.floor h₁).toNat 0 ≤
        s.getD ((Int.floor h₁).toNat + 1) (s.getD (Int.floor h₁).toNat 0) :=
      sorted_getD_succ hs hj1lt
    have hgle : h₁ - (((Int.floor h₁).toNat : ℚ)) ≤
        h₂ - (((Int.floor h₁).toNat : ℚ)) := by linarith
    nlinarith [mul_le_mul_of_nonneg_right hgle (by linarith : (0:ℚ) ≤
      s.getD ((Int.floor h₁).toNat + 1) (s.getD (Int.floor h₁).toNat 0) -
        s.getD (Int.floor h₁).toNat 0)]
  · have hsucc : (Int.floor h₁).toNat + 1 ≤ (Int.floor h₂).toNat := hlt
    have hsucclt : (Int.floor h₁).toNat + 1 < s.length :=
      lt_of_le_of_lt hsucc hj2lt
    have hx1d : s.getD ((Int.floor h₁).toNat + 1) (s.getD (Int.floor h₁).toNat 0) =
        s.getD ((Int.floor h₁).toNat + 1) 0 := by
      rw [getD_eq_of_lt s _ hsucclt, getD_eq_of_lt s 0 hsucclt]
    have hstep1 : s.getD (Int.floor h₁).toNat 0 ≤
        s.getD ((Int.floor h₁).toNat + 1) 0 :=
      sorted_getD_mono hs (Nat.le_succ _) hsucclt
    have hub : interpAt s h₁ ≤ s.getD ((Int.floor h₁).toNat + 1) 0 := by
      simp only [interpAt, hx1d]
      nlinarith [mul_le_mul_of_nonneg_right (le_of_lt hg11)
        (by linarith : (0:ℚ) ≤ s.getD ((Int.floor h₁).toNat + 1) 0 -
          s.getD (Int.floor h₁).toNat 0)]
    have hmid : s.getD ((Int.floor h₁).toNat + 1) 0 ≤
        s.getD (Int.floor h₂).toNat 0 :=
      sorted_getD_mono hs hsucc hj2lt
    have hlb : s.getD (Int.floor h₂).toNat 0 ≤ interpAt s h₂ := by
      simp only [interpAt]
      have hd2 : s.getD (Int.floor h₂).toNat 0 ≤
          s.getD ((Int.floor h₂).toNat + 1) (s.getD (Int.floor h₂).toNat 0) :=
        sorted_getD_succ hs hj2lt
      nlinarith [mul_nonneg hg20 (by linarith : (0:ℚ) ≤
        s.getD ((Int.floor h₂).toNat + 1) (s.getD (Int.floor h₂).toNat 0) -
          s.getD (Int.floor h₂).toNat 0)]
    calc interpAt s h₁ ≤ s.getD ((Int.floor h₁).toNat + 1) 0 := hub
    _ ≤ s.getD (Int.floor h₂).toNat 0 := hmid
    _ ≤ interpAt s h₂ := hlb

lemma sortDraws_sorted (xs : List ℚ) : List.Sorted (· ≤ ·) (sortDraws xs) :=
  List.sorted_insertionSort _ xs

lemma sortDraws_perm (xs : List ℚ) : (sortDraws xs).Perm xs :=
  List.perm_insertionSort _ xs

lemma sortDraws_length (xs : List ℚ) : (sortDraws xs).length = xs.length :=
  (sortDraws_perm xs).length_eq

lemma sortDraws_ne_nil {xs : List ℚ} (h : xs ≠ []) : sortDraws xs ≠ [] := by
  intro hcon
  apply h
  have := sortDraws_length xs
  rw [hcon] at this
  exact List.length_eq_zero.mp this.symm

lemma quantileType7_mono {xs : List ℚ} (hne : xs ≠ []) {p q : ℚ}
    (hp : 0 ≤ p) (hpq : p ≤ q) (hq : q ≤ 1) :
    quantileType7 xs p ≤ quantileType7 xs q := by
  unfold quantileType7 quantileSorted
  have hlen : 1 ≤ (sortDraws xs).length := by
    have := List.length_pos.mpr (sortDraws_ne_nil hne)
    omega
  have hc : (0:ℚ) ≤ ((sortDraws xs).length : ℚ) - 1 := by
    have hcast : (1:ℚ) ≤ ((sortDraws xs).length : ℚ) := by exact_mod_cast hlen
    linarith
  apply interpAt_mono (sortDraws_sorted xs)
  · exact mul_nonneg hp hc
  · exact mul_le_mul_of_nonneg_right hpq hc
  · exact mul_le_of_le_one_left hc hq

/-- **C6** — For every non-empty sample vector and every ascending list
of quantile levels within `[0,1]`, the values produced by the
sample→quantile converter (`stats::quantile`, type 7) are non-decreasing
as the level increases. -/
theorem converted_quantiles_monotone (xs levels : List ℚ) (hxs : xs ≠ [])
    (hlv : List.Sorted (· ≤ ·) levels)
    (hbound : ∀ p ∈ levels, 0 ≤ p ∧ p ≤ 1) :
    List.Sorted (· ≤ ·) (levels.map (quantileType7 xs)) := by
  rw [List.Sorted, List.pairwise_map]
  refine hlv.imp_of_mem ?_
  intro a b ha hb hab
  exact quantileType7_mono hxs (hbound a ha).1 hab (hbound b hb).2

/-- Witness for C6 at the sample vector `[3, 1, 2]` and the ascending
levels `[1/4, 1/2, 3/4]`. -/
theorem converted_quantiles_monotone_witness :
    List.Sorted (· ≤ ·) (([1/4, 1/2, 3/4] : List ℚ).map (quantileType7 [3, 1, 2])) := by
  apply converted_quantiles_monotone [3, 1, 2] [1/4, 1/2, 3/4]
  · simp
  · simp [List.sorted_cons]
    norm_num
  · intro p hp
    fin_cases hp <;> norm_num

/-- The sample vector `[1, 2, ..., 100]`. -/
def list100 : List ℚ := (List.range 100).map (fun k : ℕ => ((k : ℚ) + 1))

lemma list100_sorted : List.Sorted (· ≤ ·) list100 := by
  rw [list100, List.Sorted]
  refine List.Pairwise.map _ ?_ (List.pairwise_lt_range 100)
  intro a b hab
  have hc : (a : ℚ) ≤ (b : ℚ) := by exact_mod_cast le_of_lt hab
  linarith

lemma sortDraws_list100 : sortDraws list100 = list100 :=
  List.Sorted.insertionSort_eq list100_sorted

lemma list100_length : list100.length = 100 := by simp [list100]

lemma list100_getD (k : ℕ) {d : ℚ} (hk : k < 100) : list100.getD k d = (k : ℚ) + 1 := by
  rw [list100, List.getD_eq_getElem?_getD, List.getElem?_map,
    List.getElem?_range hk]
  rfl

lemma quantileType7_list100 : quantileType7 list100 (2⁻¹) = 101/2 := by
  have hidx : (Int.floor ((2⁻¹ : ℚ) * (((100:ℕ) : ℚ) - 1))).toNat = 49 := by
    norm_num
    rfl
  simp only [quantileType7, quantileSorted, interpAt, sortDraws_list100,
    list100_length, hidx]
  rw [list100_getD 49 (by norm_num)]
  rw [show (49:ℕ) + 1 = 50 from rfl]
  rw [list100_getD 50 (by norm_num)]
  norm_num

/-- **C4** — The sample→quantile converter computes the
linear-interpolation ("inclusive") empirical quantile from sorted order
statistics (it evaluates on the sorted permutation of the draws); in
particular, converting the sample vector `[1, ..., 100]` at level `0.5`
yields exactly `50.5`. -/
theorem sample_quantile_inclusive :
    (∀ xs : List ℚ, List.Sorted (· ≤ ·) (sortDraws xs) ∧ (sortDraws xs).Perm xs) ∧
      convert_from_sample list100 "quantile" [1/2] = some [(1/2, 101/2)] := by
  constructor
  · intro xs
    exact ⟨sortDraws_sorted xs, sortDraws_perm xs⟩
  · simp [convert_from_sample, quantileType7_list100]

lemma quantileSortedChecked_eq {s : List ℚ} (hlen : 1 ≤ s.length) {p : ℚ}
    (hp0 : 0 ≤ p) (hp1 : p ≤ 1) :
    quantileSortedChecked s p = some (quantileSorted s p) := by
  have hc : (0:ℚ) ≤ (s.length : ℚ) - 1 := by
    have hcast : (1:ℚ) ≤ (s.length : ℚ) := by exact_mod_cast hlen
    linarith
  have h0 : 0 ≤ p * ((s.length : ℚ) - 1) := mul_nonneg hp0 hc
  have htop : p * ((s.length : ℚ) - 1) ≤ (s.length : ℚ) - 1 :=
    mul_le_of_le_one_left hc hp1
  have hnm : ((s.length - 1 : ℕ) : ℚ) = (s.length : ℚ) - 1 := by
    rw [Nat.cast_sub hlen, Nat.cast_one]
  have hjle : (Int.floor (p * ((s.length : ℚ) - 1))).toNat ≤ s.length - 1 :=
    floor_toNat_le (by rw [hnm]; exact htop)
  have hjlt : (Int.floor (p * ((s.length : ℚ) - 1))).toNat < s.length := by
    omega
  have hget : s.get? (Int.floor (p * ((s.length : ℚ) - 1))).toNat
      = some (s.getD (Int.floor (p * ((s.length : ℚ) - 1))).toNat 0) := by
    rw [List.get?_eq_getElem?, List.getElem?_eq_getElem hjlt,
      getD_eq_of_lt s 0 hjlt]
  simp only [quantileSortedChecked, quantileSorted, interpAt,
    if_pos (And.intro hp0 hp1), hget]
  by_cases hg : p * ((s.length : ℚ) - 1) -
      (((Int.floor (p * ((s.length : ℚ) - 1))).toNat : ℚ)) = 0
  · rw [if_pos hg, hg]
    norm_num
  · rw [if_neg hg]
    have hle : (((Int.floor (p * ((s.length : ℚ) - 1))).toNat : ℚ)) ≤
        p * ((s.length : ℚ) - 1) := by
      rw [floor_toNat_cast h0]
      exact Int.floor_le _
    have hjq : (((Int.floor (p * ((s.length : ℚ) - 1))).toNat : ℚ)) <
        p * ((s.length : ℚ) - 1) := by
      rcases lt_or_eq_of_le hle with hlt | heq
      · exact hlt
      · exact absurd (by linarith) hg
    have hjlt1 : (Int.floor (p * ((s.length : ℚ) - 1))).toNat + 1 < s.length := by
      have hq : (((Int.floor (p * ((s.length : ℚ) - 1))).toNat : ℚ)) <
          ((s.length - 1 : ℕ) : ℚ) := by
        rw [hnm]
        linarith
      have hnat : (Int.floor (p * ((s.length : ℚ) - 1))).toNat < s.length - 1 := by
        exact_mod_cast hq
      omega
    have hget1 : s.get? ((Int.floor (p * ((s.length : ℚ) - 1))).toNat + 1)
        = some (s.getD ((Int.floor (p * ((s.length : ℚ) - 1))).toNat + 1)
            (s.getD (Int.floor (p * ((s.length : ℚ) - 1))).toNat 0)) := by
      rw [List.get?_eq_getElem?, List.getElem?_eq_getElem hjlt1,
        getD_eq_of_lt s _ hjlt1]
    rw [hget1]

/-- **C8** — For every non-empty sample vector (including degenerate
inputs with fewer draws than configured levels) and every level in
`[0,1]` — in particular every level of the configured grid, which the
second conjunct shows lies in `[0,1]` — the index-checked sample→
quantile evaluation succeeds and returns the converter's value:
no indexing error can occur. -/
theorem sample_converter_never_errors :
    (∀ (xs : List ℚ) (p : ℚ), xs ≠ [] → 0 ≤ p → p ≤ 1 →
      quantileType7Checked xs p = some (quantileType7 xs p)) ∧
    (∀ p ∈ quantileLevels, 0 ≤ p ∧ p ≤ 1) := by
  constructor
  · intro xs p hne hp0 hp1
    have hlen : 1 ≤ (sortDraws xs).length := by
      have h0 := List.length_pos.mpr (sortDraws_ne_nil hne)
      omega
    exact quantileSortedChecked_eq hlen hp0 hp1
  · intro p hp
    fin_cases hp <;> norm_num

/-- Witness for C8: a single draw `[5]` — far fewer draws than the 23
configured levels — still evaluates without error at level `0.01`. -/
theorem sample_converter_never_errors_witness :
    quantileType7Checked [5] (1/100) = some (quantileType7 [5] (1/100)) :=
  sample_converter_never_errors.1 [5] (1/100) (by simp) (by norm_num)
    (by norm_num)

lemma mem_uniqueList {α : Type} [DecidableEq α] {x : α} :
    ∀ {l : List α}, x ∈ uniqueList l ↔ x ∈ l := by
  intro l
  induction l using uniqueList.induct with
  | case1 => simp [uniqueList]
  | case2 a t ih =>
    rw [uniqueList]
    by_cases hx : x = a
    · subst hx
      simp
    · simp only [List.mem_cons, ih, List.mem_filter, decide_eq_true_eq]
      constructor
      · rintro (rfl | ⟨h1, _⟩)
        · exact Or.inl rfl
        · exact Or.inr h1
      · rintro (rfl | ht)
        · exact Or.inl rfl
        · exact Or.inr ⟨ht, hx⟩

lemma uniqueList_eq_nil {α : Type} [DecidableEq α] {l : List α} :
    uniqueList l = [] ↔ l = [] := by
  cases l with
  | nil => simp [uniqueList]
  | cons a t => simp [uniqueList]

lemma uniqueList_eq_singleton {α : Type} [DecidableEq α] {l : List α} {v : α} :
    uniqueList l = [v] ↔ l ≠ [] ∧ ∀ x ∈ l, x = v := by
  cases l with
  | nil => simp [uniqueList]
  | cons a t =>
    rw [uniqueList]
    simp only [List.cons.injEq]
    constructor
    · rintro ⟨rfl, h2⟩
      have ht : t.filter (fun b => decide (b ≠ a)) = [] := uniqueList_eq_nil.mp h2
      refine ⟨List.cons_ne_nil _ _, ?_⟩
      intro x hx
      rcases List.mem_cons.mp hx with rfl | hxt
      · rfl
      · by_contra hne
        have hmem : x ∈ t.filter (fun b => decide (b ≠ a)) :=
          List.mem_filter.mpr ⟨hxt, by simp [hne]⟩
        rw [ht] at hmem
        simp at hmem
    · rintro ⟨_, hall⟩
      have ha : a = v := hall a (List.mem_cons_self a t)
      subst ha
      refine ⟨rfl, uniqueList_eq_nil.mpr ?_⟩
      rw [List.filter_eq_nil_iff]
      intro x hx
      simp [hall x (List.mem_cons_of_mem _ hx)]

/-- **C9** — The `"median"` branch of `convert_from_sample` returns
exactly what the `"mean"` branch returns (both compute `mean(value)`);
consequently, whenever the sample mean differs from the sample median,
the `"median"` conversion is not the sample median. -/
theorem median_branch_equals_mean_branch :
    (∀ (draws ids : List ℚ),
      convert_from_sample draws "median" ids =
        convert_from_sample draws "mean" ids) ∧
    (∀ (draws : List ℚ) (i : ℚ), sampleMean draws ≠ sampleMedian draws →
      convert_from_sample draws "median" [i] ≠
        some [(i, sampleMedian draws)]) := by
  constructor
  · intro draws ids
    simp [convert_from_sample]
  · intro draws i hne hcon
    have h1 : convert_from_sample draws "median" [i] =
        some [(i, sampleMean draws)] := by
      simp [convert_from_sample]
    rw [h1] at hcon
    simp only [Option.some.injEq, List.cons.injEq, Prod.mk.injEq] at hcon
    exact hne hcon.1.2

/-- Witness for C9 at the draws `[0, 0, 3]` (mean `1`, median `0`). -/
theorem median_branch_equals_mean_branch_witness :
    convert_from_sample [0, 0, 3] "median" [1/2] ≠
      some [(1/2, sampleMedian [0, 0, 3])] :=
  median_branch_equals_mean_branch.2 [0, 0, 3] (1/2)
    (by norm_num [sampleMean, sampleMedian, sortDraws, List.insertionSort,
      List.orderedInsert])

/-- **C10** — Every record in the list written to a per-model output
file (the result of `read_forecasts` followed by
`filter(horizon != -1)`) has horizon different from `-1`. -/
theorem published_records_skip_horizon_minus_one
    (rows : List ForecastRecord) (r : ForecastRecord)
    (hmem : r ∈ modeloutputForFile rows) : r.horizon ≠ -1 := by
  unfold modeloutputForFile at hmem
  have h2 := (List.mem_filter.mp hmem).2
  simpa using h2

/-- A quantile row used in small concrete pipeline examples. -/
def exQuantileRec : ForecastRecord :=
  ⟨"modelA", "2024-01-13", "37", "wk inc flu hosp", 1, "2024-01-20",
   "quantile", 1/4, 100⟩

/-- Witness for C10: the single record surviving the pipeline on a
one-row input file has horizon `1 ≠ -1`. -/
theorem published_records_skip_horizon_minus_one_witness :
    exQuantileRec.horizon ≠ -1 := by
  apply published_records_skip_horizon_minus_one [exQuantileRec]
  simp [modeloutputForFile, read_forecasts, hubFilter, allowedLocs,
    normalizeGroup, uniqueList, exQuantileRec]

/-- **C7** — The hub reader keeps exactly the rows whose location is in
the allow-list `{"37000", "37", "NC_flu_hosp"}` and that do not match
the excluded combination (model `"UNC_IDD-InfluPaint"`, location
`"37"`). -/
theorem hub_reader_keeps_exactly_allowed
    (rows : List ForecastRecord) (r : ForecastRecord) :
    r ∈ hubFilter "flu" "hosp" rows ↔
      r ∈ rows ∧ r.location ∈ (["37000", "37", "NC_flu_hosp"] : List String) ∧
        ¬(r.model_id = "UNC_IDD-InfluPaint" ∧ r.location = "37") := by
  simp only [hubFilter, allowedLocs, List.mem_filter, decide_eq_true_eq,
    Bool.not_eq_eq_eq_not, Bool.not_true, Bool.and_eq_false_imp,
    beq_iff_eq, and_assoc]
  constructor
  · rintro ⟨h1, h2, h3⟩
    refine ⟨h1, by simpa using h2, ?_⟩
    rintro ⟨hm1, hl⟩
    exact absurd (h3 (by simp [hm1])) (by simp [hl])
  · rintro ⟨h1, h2, h3⟩
    refine ⟨h1, by simpa using h2, ?_⟩
    intro hm
    by_contra hl
    exact h3 ⟨by simpa using hm, by simpa using hl⟩

/-- **C2 counterexample** — For the concrete publish of
`"out/f.csv"` the writer performs no rename at all (its trace is a
single direct write), refuting "first written to a temporary path and
then renamed into its final place". -/
theorem writer_no_temp_rename_counterexample :
    ¬ ∃ tmp : String, tmp ≠ "out/f.csv" ∧
        FsOp.write tmp ∈ write_csv_with_dir true "out" "out/f.csv" ∧
        FsOp.rename tmp "out/f.csv" ∈ write_csv_with_dir true "out" "out/f.csv" := by
  rintro ⟨tmp, -, -, hr⟩
  simp [write_csv_with_dir] at hr

/-- **C2 amended** — Every published output file is written directly to
its final path (after creating the missing directory if needed); the
writer's trace contains the direct write and no rename operation, so
the publish step is not atomic. -/
theorem writer_writes_directly (dirExists : Bool) (dp fp : String) :
    FsOp.write fp ∈ write_csv_with_dir dirExists dp fp ∧
      (write_csv_with_dir dirExists dp fp).filter FsOp.isRename = [] := by
  constructor
  · cases dirExists <;> simp [write_csv_with_dir]
  · cases dirExists <;> simp [write_csv_with_dir, FsOp.isRename]

/-- Registry with one NC entry, population `100000`. -/
def exRegistry : List LocationMeta :=
  [⟨"NC", "37", "North Carolina", 100000⟩]

/-- One raw ground-truth row: 1 admission in the week ending
2023-10-01. -/
def exRawRows : List RawTargetRow := [⟨"2023-10-01", 1⟩]

/-- **C1 counterexample** — With population `100000` and observed value
`1`, the emitted rate is `value/population = 1/100000`, while the claim
(`value/population*100000`) demands `1`; the gap `99999/100000` exceeds
any floating tolerance (it is `> 1/2`). -/
theorem ground_truth_rate_counterexample :
    (target_data exRawRows exRegistry).map (·.weekly_rate) =
      [some ((1:ℚ)/100000)] ∧
    |(1:ℚ)/100000 - (1:ℚ)/100000 * 100000| > 1/2 := by
  constructor
  · have hd : strLe "2023-09-01" "2023-10-01" = true := by decide
    norm_num [target_data, exRawRows, exRegistry, lookupPopulation, hd]
  · have habs : |(1:ℚ)/100000 - (1:ℚ)/100000 * 100000| = 99999/100000 := by
      rw [show (1:ℚ)/100000 - (1:ℚ)/100000 * 100000 = -(99999/100000) by
        norm_num]
      rw [abs_neg, abs_of_pos]
      norm_num
    rw [habs]
    norm_num

/-- **C1 amended** — For every observed ground-truth row that joins to a
Location Registry entry with population `p`, the ground-truth loader
emits the per-capita rate `value / p` (not scaled by 100000). -/
theorem ground_truth_rate_per_capita (rows : List RawTargetRow)
    (dic : List LocationMeta) (row : GroundTruthRow)
    (hmem : row ∈ target_data rows dic) (p : ℚ)
    (hp : row.population = some p) :
    row.weekly_rate = some (row.value / p) := by
  unfold target_data at hmem
  rcases List.mem_map.mp hmem with ⟨raw, _, rfl⟩
  simp only at hp ⊢
  rw [hp]
  rfl

/-- Witness for C1 (amended) at the one-row example input. -/
theorem ground_truth_rate_per_capita_witness :
    (⟨"2023-10-01", "37", "NC", "North Carolina", 1, some 100000,
      some ((1:ℚ)/100000)⟩ : GroundTruthRow).weekly_rate =
      some ((1:ℚ)/100000) := by
  have hd : strLe "2023-09-01" "2023-10-01" = true := by decide
  exact ground_truth_rate_per_capita exRawRows exRegistry _
    (by norm_num [target_data, exRawRows, exRegistry, lookupPopulation, hd])
    100000 rfl

/-- A one-row group whose only output type is `"sample"` (singular). -/
def sampleSingularRec : ForecastRecord :=
  ⟨"modelS", "2024-01-13", "37", "wk inc flu hosp", 1, "2024-01-20",
   "sample", 0, 7⟩

/-- **C3 counterexample** — A group whose only declared output type is
the literal `"sample"` is *not* routed to the converter: the code tests
for `"samples"` (plural), so the group passes through unchanged even
though converting it would have produced 23 quantile rows. -/
theorem sample_singular_not_routed_counterexample :
    uniqueList ([sampleSingularRec].map (·.output_type)) = ["sample"] ∧
    normalizeGroup [sampleSingularRec] = [sampleSingularRec] ∧
    convertGroupToQuantiles [sampleSingularRec] ≠ [sampleSingularRec] := by
  refine ⟨by simp [uniqueList, sampleSingularRec], ?_, ?_⟩
  · rw [normalizeGroup]
    rw [if_neg]
    simp [uniqueList, sampleSingularRec]
  · intro hcon
    have hlen := congrArg List.length hcon
    rw [convertGroupToQuantiles] at hlen
    simp [uniqueList, sampleSingularRec, keyOf, quantileLevels] at hlen

/-- **C3 amended** — A model's group is routed through the
sample→quantile converter if and only if `"samples"` (the plural
literal used by the source) is the only output type its rows declare;
otherwise the group passes through unchanged. -/
theorem samples_group_routing (df : List ForecastRecord) :
    ((df ≠ [] ∧ ∀ r ∈ df, r.output_type = "samples") →
      normalizeGroup df = convertGroupToQuantiles df) ∧
    (¬(df ≠ [] ∧ ∀ r ∈ df, r.output_type = "samples") →
      normalizeGroup df = df) := by
  have hbridge : uniqueList (df.map (·.output_type)) = ["samples"] ↔
      df ≠ [] ∧ ∀ r ∈ df, r.output_type = "samples" := by
    rw [uniqueList_eq_singleton]
    constructor
    · rintro ⟨h1, h2⟩
      refine ⟨fun hc => h1 (by simp [hc]), ?_⟩
      intro r hr
      exact h2 _ (List.mem_map_of_mem _ hr)
    · rintro ⟨h1, h2⟩
      refine ⟨by simpa using h1, ?_⟩
      intro x hx
      rcases List.mem_map.mp hx with ⟨r, hr, rfl⟩
      exact h2 r hr
  constructor
  · intro h
    rw [normalizeGroup, if_pos (hbridge.mpr h)]
  · intro h
    rw [normalizeGroup, if_neg (fun hc => h (hbridge.mp hc))]

/-- A one-row group whose only output type is `"samples"` (plural). -/
def samplesPluralRec : ForecastRecord :=
  ⟨"modelT", "2024-01-13", "37", "wk inc flu hosp", 1, "2024-01-20",
   "samples", 0, 7⟩

/-- Witness for C3 (amended): the `"samples"`-only group is routed to
the converter. -/
theorem samples_group_routing_witness :
    normalizeGroup [samplesPluralRec] =
      convertGroupToQuantiles [samplesPluralRec] := by
  apply (samples_group_routing [samplesPluralRec]).1
  refine ⟨List.cons_ne_nil _ _, ?_⟩
  intro r hr
  rcases List.mem_cons.mp hr with rfl | hcon
  · rfl
  · simp at hcon

/-- Two models' quantile rows at the same two levels: model `"A"` has
values `[100, 200]`, model `"B"` has values `[120, 180]`. -/
def exEnsembleInput : List ForecastRecord :=
  [⟨"A", "2024-01-13", "37", "wk inc flu hosp", 1, "2024-01-20",
    "quantile", 1/4, 100⟩,
   ⟨"A", "2024-01-13", "37", "wk inc flu hosp", 1, "2024-01-20",
    "quantile", 3/4, 200⟩,
   ⟨"B", "2024-01-13", "37", "wk inc flu hosp", 1, "2024-01-20",
    "quantile", 1/4, 120⟩,
   ⟨"B", "2024-01-13", "37", "wk inc flu hosp", 1, "2024-01-20",
    "quantile", 3/4, 180⟩]

lemma round3_quarter : round3 (1/4) = 1/4 := by
  rw [round3]
  norm_num

lemma round3_three_quarters : round3 (3/4) = 3/4 := by
  rw [round3]
  norm_num

/-- **C5** — Every ensemble record has the synthetic model id, a horizon
inside the fixed range 0–3, and a value equal to the arithmetic mean of
the values of exactly the (prepared) model rows that share its full
(location, target, horizon, level) key; on the two-model example with
quantile values `[100, 200]` and `[120, 180]`, the ensemble values are
`110` and `190`. -/
theorem ensemble_is_per_level_mean :
    (∀ (combined : List ForecastRecord) (rec : ForecastRecord),
      rec ∈ mean_ens combined →
        rec.model_id = "simple-ensemble-mean" ∧
        (0 ≤ rec.horizon ∧ rec.horizon ≤ 3) ∧
        rec.value = sampleMean (((prepareForEnsemble combined).filter
          (fun r => decide (ensKeyOf r = ensKeyOf rec))).map (·.value))) ∧
    (mean_ens exEnsembleInput).map (fun r => (r.output_type_id, r.value)) =
      [(1/4, 110), (3/4, 190)] := by
  constructor
  · intro combined rec hmem
    unfold mean_ens simple_ensemble at hmem
    rcases List.mem_map.mp hmem with ⟨k, hk, rfl⟩
    have hkmem : k ∈ (prepareForEnsemble combined).map ensKeyOf :=
      mem_uniqueList.mp hk
    rcases List.mem_map.mp hkmem with ⟨r0, hr0, hr0k⟩
    have hbound : 0 ≤ r0.horizon ∧ r0.horizon ≤ 3 := by
      unfold prepareForEnsemble at hr0
      have h2 := (List.mem_filter.mp hr0).2
      simpa using h2
    have hhor : k.horizon = r0.horizon := by
      rw [← hr0k]
      rfl
    refine ⟨rfl, ?_, rfl⟩
    simpa [hhor] using hbound
  · norm_num [mean_ens, prepareForEnsemble, exEnsembleInput, round3_quarter,
      round3_three_quarters, simple_ensemble, uniqueList, ensKeyOf,
      EnsKey.mk.injEq, sampleMean]

/-- The first record emitted by `mean_ens` on the two-model example:
the level-`1/4` ensemble row with value `110`. -/
def exEnsembleRec : ForecastRecord :=
  ⟨"simple-ensemble-mean", "2024-01-13", "37", "wk inc flu hosp", 1,
   "2024-01-20", "quantile", 1/4, 110⟩

/-- Witness for C5 at the two-model example input. -/
theorem ensemble_is_per_level_mean_witness :
    exEnsembleRec.model_id = "simple-ensemble-mean" ∧
    (0 ≤ exEnsembleRec.horizon ∧ exEnsembleRec.horizon ≤ 3) ∧
    exEnsembleRec.value = sampleMean (((prepareForEnsemble exEnsembleInput).filter
      (fun r => decide (ensKeyOf r = ensKeyOf exEnsembleRec))).map (·.value)) :=
  ensemble_is_per_level_mean.1 exEnsembleInput exEnsembleRec
    (by norm_num [mean_ens, prepareForEnsemble, exEnsembleInput,
      round3_quarter, round3_three_quarters, simple_ensemble, uniqueList,
      ensKeyOf, EnsKey.mk.injEq, sampleMean, exEnsembleRec,
      ForecastRecord.mk.injEq])

end RespiLens
